import Mathlib

/-!
Verification development for the runonchange supervisor (Go).

The definitions below are a shallow embedding of the Go sources:

  run.go        (maybeRun, runSync, runAsync, isRecent, watchFSEvents,
                 handleFSEvents, cleanupExistant)
  directive.go  (isRejected)
  cli.go        (parseCli, buildBaseDirective, validateDirective)
  main          (exitReason, die, the startup error dispatch)

Modelling conventions, stated once here:

  * time.Time and time.Duration are modelled as Int (nanoseconds).
    The zero time.Time value is 0.  time.Since t is now - t.
    Signed 64-bit overflow of Go integer arithmetic is modelled
    explicitly by wrap64 at the two places the sources multiply
    durations; time.Time.Sub clamping is irrelevant at the
    magnitudes any claim touches and plain subtraction is used.
  * A compiled regular expression is observable only through its
    MatchString method, so a matcher carries an abstract
    predicate Expr : String -> Bool.
  * Channels, goroutines and printing are not data; functions model
    the value returned by one call, with the outcome of the kill
    system call and of the synchronous child run passed in as
    explicit oracle arguments.
  * os.Getenv, os.Stat and regexp.Compile are external collaborators
    that parseCli consumes; they are passed in as the record Sys.
-/

/-- Two-sided complement wrap of signed 64-bit integer arithmetic:
Go int64 multiplication overflows deterministically by wrapping. -/
def wrap64 (x : Int) : Int :=
  (x + 2 ^ 63) % 2 ^ 64 - 2 ^ 63

/-- The white-space set of strings.TrimSpace restricted to ASCII
(space, tab, newline, vertical tab, form feed, carriage return);
the claims never exercise non-ASCII white space. -/
def goIsSpace (c : Char) : Bool :=
  c = ' ' || c = '\t' || c = '\n' || c = '\x0b' || c = '\x0c' || c = '\r'

/-- strings.TrimSpace: drop white space from both ends. -/
def trimSpace (s : String) : String :=
  String.mk (((s.toList.dropWhile goIsSpace).reverse.dropWhile goIsSpace).reverse)

/-- strconv.Atoi on a 64-bit platform: optional sign, at least one
digit, all digits, value within the int64 range (out-of-range input
returns an error, modelled as none). -/
def strconvAtoi (s : String) : Option Int :=
  match s.toList with
  | [] => none
  | c :: rest =>
    let signed : Bool × List Char :=
      if c = '-' then (true, rest)
      else if c = '+' then (false, rest)
      else (false, c :: rest)
    match signed with
    | (neg, digits) =>
      if digits = [] then none
      else if digits.all Char.isDigit then
        let n : Nat := digits.foldl (fun a d => a * 10 + (d.toNat - 48)) 0
        let v : Int := if neg then -(n : Int) else (n : Int)
        if -(2 ^ 63) ≤ v ∧ v ≤ 2 ^ 63 - 1 then some v else none
      else none

/-- filepath.Base on a unix path: empty input gives ".", otherwise
trailing separators are stripped, everything up to the last separator
is dropped, and an all-separator input gives "/". -/
def filepathBase (p : String) : String :=
  if p = "" then "."
  else
    let kept := ((p.toList.reverse.dropWhile (fun c => c = '/')).takeWhile
      (fun c => c ≠ '/')).reverse
    if kept = [] then "/" else String.mk kept

/-- The ASCII word-character class of the RE2 escape in the magic
pattern: [0-9A-Za-z_]. -/
def isWordCharGo (c : Char) : Bool :=
  ('0' ≤ c && c ≤ '9') || ('A' ≤ c && c ≤ 'Z') || ('a' ≤ c && c ≤ 'z') || c = '_'

/-- The character class [a-z] of the magic pattern. -/
def isLowerAZ (c : Char) : Bool :=
  'a' ≤ c && c ≤ 'z'

/-- Anchored match semantics of magicFileRegexp, the fixed pattern
that auto-ignores editor temp files.  The first
alternative is the concatenation of a literal dot, one word
character, any string, the literal letters s and w, and one lower
case letter; the second alternative is the literal 4913. -/
def MatchesMagicRegexp (s : List Char) : Prop :=
  (∃ w mid c, isWordCharGo w = true ∧ isLowerAZ c = true ∧
    s = '.' :: w :: (mid ++ ['s', 'w', c])) ∨ s = ['4', '9', '1', '3']

/-- Helper for the executable magic match: the tail after the first
two characters must end in the three characters s, w, lower-case. -/
def magicSuffix (rest : List Char) : Bool :=
  match rest.reverse with
  | c :: 'w' :: 's' :: _ => isLowerAZ c
  | _ => false

/-- Executable form of the magic match (proved equivalent to
MatchesMagicRegexp below). -/
def magicMatchB (s : List Char) : Bool :=
  (match s with
   | a :: w :: rest => a = '.' && isWordCharGo w && magicSuffix rest
   | _ => false) || s = ['4', '9', '1', '3']

theorem magicSuffix_iff (rest : List Char) :
    magicSuffix rest = true ↔
      ∃ mid c, isLowerAZ c = true ∧ rest = mid ++ ['s', 'w', c] := by
  constructor
  · intro h
    unfold magicSuffix at h
    match hr : rest.reverse with
    | [] => rw [hr] at h; exact absurd h (by simp)
    | [c] => rw [hr] at h; exact absurd h (by simp)
    | [c, d] => rw [hr] at h; exact absurd h (by simp)
    | c :: d :: e :: t =>
      rw [hr] at h
      have hrest : rest = (c :: d :: e :: t).reverse := by
        rw [← hr, List.reverse_reverse]
      by_cases hd : d = 'w'
      · by_cases he : e = 's'
        · subst hd he
          refine ⟨t.reverse, c, h, ?_⟩
          simp [hrest]
        · exact absurd h (by simp [magicSuffix, he])
      · exact absurd h (by simp [magicSuffix, hd])
  · rintro ⟨mid, c, hc, rfl⟩
    unfold magicSuffix
    simp [List.reverse_append, hc]

theorem magicMatchB_iff (s : List Char) :
    magicMatchB s = true ↔ MatchesMagicRegexp s := by
  unfold magicMatchB MatchesMagicRegexp
  rw [Bool.or_eq_true]
  constructor
  · rintro (h | h)
    · match s with
      | [] => exact absurd h (by simp)
      | [a] => exact absurd h (by simp)
      | a :: w :: rest =>
        simp only [Bool.and_eq_true, decide_eq_true_eq] at h
        obtain ⟨⟨ha, hw⟩, hsfx⟩ := h
        obtain ⟨mid, c, hc, hdec⟩ := (magicSuffix_iff rest).mp hsfx
        exact Or.inl ⟨w, mid, c, hw, hc, by rw [ha, hdec]⟩
    · right
      simpa using h
  · rintro (⟨w, mid, c, hw, hc, rfl⟩ | rfl)
    · left
      have hs : magicSuffix (mid ++ ['s', 'w', c]) = true :=
        (magicSuffix_iff _).mpr ⟨mid, c, hc, rfl⟩
      simp [hs, hw]
    · right; rfl

/-! ## Data model -/

/-- A filesystem event as the Filter sees it: only the Name field of
fsnotify.Event is consulted by the embedded code. -/
structure FsEvent where
  Name : String

/-- A compiled pattern with its mode: Expr abstracts the MatchString
method of the compiled regular expression, IsIgnore distinguishes -i
(ignore) from -r (restrict) patterns. -/
structure matcher where
  Expr : String → Bool
  IsIgnore : Bool

/-- The feature map of the directive.  Go stores features in
map[featureFlag]bool; the flags are a fixed finite enumeration, so the
map is modelled as a record of Booleans, absent keys reading false. -/
structure FeaturesRec where
  autoIgnore : Bool
  debug : Bool
  clobber : Bool
  recursive : Bool
  quiet : Bool

/-- runDirective: the configuration plus the mutable runner state the
claims touch.  Channel handles (Birth, Death, Kills), the exec.Cmd
handle and the mutex are process plumbing with no data content and
are not carried; Living keeps only the process-group id that the kill
path consults. -/
structure runDirective where
  Shell : String
  Command : String
  WatchTargets : List String
  Patterns : List matcher
  Features : FeaturesRec
  WaitFor : Int
  LastRun : Int
  LastFin : Int
  Living : Option Int

/-- The parse stages of cli.go, in declaration (iota) order. -/
inductive parseStage where
  | psNumArgs
  | psHelp
  | psInvalidFlag
  | psCommand
  | psWatchTarget
  | psFilePattern
  | psBadDuration
deriving DecidableEq

export parseStage (psNumArgs psHelp psInvalidFlag psCommand psWatchTarget psFilePattern psBadDuration)

/-- A cli parse failure.  The Go struct also carries wrapped error
values used only for message formatting; the code that branches on a
parseError (main) consults only the Stage. -/
structure parseError where
  Stage : parseStage
deriving DecidableEq

/-- The external collaborators parseCli consumes: the SHELL
environment variable, os.Stat (existence and directory-ness) and
regexp.Compile (some MatchString on success, none on failure). -/
structure Sys where
  shellEnv : String
  statExists : String → Bool
  statIsDir : String → Bool
  compile : String → Option (String → Bool)

/-- The exit classes of main, in declaration (1 + iota) order. -/
inductive exitReason where
  | exCommandline
  | exWatcher
  | exFsevent
deriving DecidableEq

/-- The numeric exit code of each exit class: os.Exit(int(reason)). -/
def exitReason.toInt : exitReason → Int
  | .exCommandline => 1
  | .exWatcher => 2
  | .exFsevent => 3

/-! ## Filter (directive.go isRejected, run.go watchFSEvents) -/

/-- One matcher rejecting a basename: an IGNORE pattern rejects on
match, a RESTRICT pattern rejects on non-match. -/
def rejectsMatcher (m : matcher) (base : String) : Bool :=
  if m.IsIgnore then m.Expr base else !(m.Expr base)

/-- The loop body of isRejected: walks the chain in order carrying
the running index i, and returns the index of the first matcher that
rejects together with its IsIgnore mode (the source reports exactly
this pair on stderr: IGNR[i] or the - tick for an ignore hit, MISS[i]
or the _ tick for a restrict miss), or none when every matcher
passes. -/
def isRejectedAux (base : String) : List matcher → Nat → Option (Nat × Bool)
  | [], _ => none
  | p :: rest, i =>
    if p.IsIgnore then
      if p.Expr base then some (i, true) else isRejectedAux base rest (i + 1)
    else
      if !(p.Expr base) then some (i, false) else isRejectedAux base rest (i + 1)

/-- isRejected of directive.go: an empty chain rejects nothing;
otherwise each matcher is evaluated in order against
filepath.Base(e.Name) and the first rejection wins. -/
def isRejected (chain : List matcher) (e : FsEvent) : Bool :=
  if chain.length = 0 then false
  else (isRejectedAux (filepathBase e.Name) chain 0).isSome

/-- Variant of isRejected written after the words of the spec, which
says each Matcher is evaluated against the full path of the event
file; kept only to compare with the source function, which evaluates
against the basename. -/
def isRejectedFullPathSpec (chain : List matcher) (e : FsEvent) : Bool :=
  if chain.length = 0 then false
  else (isRejectedAux e.Name chain 0).isSome

/-- The observable outcome of one iteration of the watchFSEvents
select loop. -/
inductive WatchStep where
  | emit (e : FsEvent)
  | drop
  | exit (code : Int)

/-- One iteration of watchFSEvents (run.go): on an event, the
auto-ignore check against the magic pattern runs first, then the
user pattern chain; surviving events are forwarded.  On a watcher
error the process dies with exFsevent. -/
def watchFSEventsStep (run : runDirective) (input : FsEvent ⊕ String) : WatchStep :=
  match input with
  | .inl e =>
    if run.Features.autoIgnore && magicMatchB (filepathBase e.Name).toList then .drop
    else if isRejected run.Patterns e then .drop
    else .emit e
  | .inr _ => .exit (exitReason.toInt .exFsevent)

/-! ## Runner (run.go) -/

/-- The recency window actually applied by isRecent: the configured
WaitFor, doubled with int64 wraparound when CLOBBER is on
(the source does since *= 2 on the int64 Duration). -/
def effectiveWindow (run : runDirective) : Int :=
  if run.Features.clobber then wrap64 (run.WaitFor * 2) else run.WaitFor

/-- isRecent of run.go: the last start or the last finish lies within
the effective window of now. -/
def isRecent (run : runDirective) (now : Int) : Bool :=
  decide (now - run.LastRun ≤ effectiveWindow run) ||
    decide (now - run.LastFin ≤ effectiveWindow run)

/-- cleanupExistant of run.go, called with wait=true from runAsync:
with no living child it reports (existed=false, nil) without any
kill; with a living child it issues SIGKILL to the negative pid,
whose outcome is the oracle killErr, and on success waits on the
Death channel before reporting (existed=true, nil). -/
def cleanupExistant (run : runDirective) (killErr : Option String) :
    Bool × Option String :=
  match run.Living with
  | none => (false, none)
  | some _ => (true, killErr)

/-- runAsync of run.go: a cleanup failure aborts (false) with the
kill error discarded; otherwise the child is spawned, its birth is
awaited and Living is recorded, and true is returned. -/
def runAsync (run : runDirective) (killErr : Option String) : Bool :=
  match (cleanupExistant run killErr).2 with
  | some _ => false
  | none => true

/-- runSync of run.go always reports started=true: the select returns
(true, nil) once birth is seen, (true, e) on an early death and
(true, interrupted) on an early kill signal; the oracle syncErr is
whichever error that select step delivered. -/
def runSync (syncErr : Option String) : Bool × Option String :=
  (true, syncErr)

/-- maybeRun of run.go (the spec calls it tryRun), reduced to the
returned (started, error) pair: under the run mutex, a recent
start or finish short-circuits to (false, nil); otherwise LastRun,
LastFin and fresh Birth and Death channels are installed and the run
is delegated to runAsync (CLOBBER, its error component always nil)
or runSync.  The in-place state writes are process plumbing that no
claim observes and are not returned. -/
def maybeRun (run : runDirective) (now : Int) (killErr : Option String)
    (syncErr : Option String) : Bool × Option String :=
  if isRecent run now then (false, none)
  else if run.Features.clobber then (runAsync run killErr, none)
  else runSync syncErr

/-- The event branch of the handleFSEvents select loop (run.go): an
event that arrives while a child is living outside CLOBBER mode is
dropped (none); otherwise maybeRun decides. -/
def handleFSEventStep (run : runDirective) (now : Int)
    (killErr : Option String) (syncErr : Option String) :
    Option (Bool × Option String) :=
  if run.Living.isSome && !run.Features.clobber then none
  else some (maybeRun run now killErr syncErr)

/-! ## CLI (cli.go) and startup (main) -/

/-- defaultWaitTime: 2 seconds in nanoseconds. -/
def defaultWaitTime : Int := 2 * 1000000000

/-- The argument loop of parseCli.  Each iteration consumes one
argument, or two for the value-carrying flags -w, -i and -r exactly
as the Go loop advances its index.  The Go code writes patterns and
watch targets into pre-sized slices at ptrnCount-1 and trgtCount-1
and truncates to the written prefix afterwards; since the writes are
sequential, the accumulated lists tg and pt are that prefix. -/
def parseArgsLoop (sys : Sys) : List String → runDirective → List String →
    List matcher → Except parseError (runDirective × List String × List matcher)
  | [], d, tg, pt => .ok (d, tg, pt)
  | arg :: rest, d, tg, pt =>
    if arg = "-d" then
      parseArgsLoop sys rest
        { d with Features := { d.Features with debug := true } } tg pt
    else if arg = "-c" then
      parseArgsLoop sys rest
        { d with Features := { d.Features with clobber := true } } tg pt
    else if arg = "-R" then
      parseArgsLoop sys rest
        { d with Features := { d.Features with recursive := true } } tg pt
    else if arg = "-q" then
      parseArgsLoop sys rest
        { d with Features := { d.Features with quiet := true } } tg pt
    else if arg = "-h" ∨ arg = "h" ∨ arg = "--help" ∨ arg = "help" then
      .error ⟨psHelp⟩
    else if arg = "-w" then
      match rest with
      | [] => .error ⟨psBadDuration⟩
      | v :: rest2 =>
        match strconvAtoi v with
        | none => .error ⟨psBadDuration⟩
        | some n =>
          parseArgsLoop sys rest2
            { d with WaitFor := wrap64 (n * 1000000000) } tg pt
    else if arg = "-i" ∨ arg = "-r" then
      match rest with
      | [] => .error ⟨psFilePattern⟩
      | v :: rest2 =>
        match sys.compile v with
        | none => .error ⟨psFilePattern⟩
        | some f =>
          parseArgsLoop sys rest2 d tg (pt ++ [{ Expr := f, IsIgnore := arg = "-i" }])
    else if arg = "" then .error ⟨psInvalidFlag⟩
    else if arg.toList.head? = some '-' then .error ⟨psInvalidFlag⟩
    else if d.Command = "" then
      if trimSpace arg = "" then .error ⟨psCommand⟩
      else parseArgsLoop sys rest { d with Command := trimSpace arg } tg pt
    else
      if trimSpace arg = "" then .error ⟨psWatchTarget⟩
      else if sys.statExists (trimSpace arg) = false then .error ⟨psWatchTarget⟩
      else if sys.statIsDir (trimSpace arg) = false then .error ⟨psWatchTarget⟩
      else parseArgsLoop sys rest d (tg ++ [trimSpace arg]) pt

/-- The directive buildBaseDirective assembles before its SHELL
checks: the feature map with flgAutoIgnore preset, the default watch
target ./ planted at index 0, the default wait time, and the Shell
taken from the environment.  The runner state fields start at their
zero values. -/
def baseDirectiveOf (sys : Sys) : runDirective :=
  { Shell := sys.shellEnv, Command := "", WatchTargets := [], Patterns := [],
    Features := { autoIgnore := true, debug := false, clobber := false,
                  recursive := false, quiet := false },
    WaitFor := defaultWaitTime, LastRun := 0, LastFin := 0, Living := none }

/-- buildBaseDirective of cli.go: a missing SHELL variable or a
failing os.Stat on it is a psCommand error; otherwise the base
directive is returned. -/
def buildBaseDirective (sys : Sys) : Except parseError runDirective :=
  if sys.shellEnv.length < 1 then .error ⟨psCommand⟩
  else if sys.statExists sys.shellEnv = false then .error ⟨psCommand⟩
  else .ok (baseDirectiveOf sys)

/-- The post-loop truncation of the WatchTargets slice: with no
positional target the default ./ planted by buildBaseDirective at
index 0 is kept, otherwise the written prefix stands. -/
def finalizeTargets (tg : List String) : List String :=
  if tg.length = 0 then ["./"] else tg

/-- validateDirective of cli.go: a missing COMMAND, then an empty
target list, then an all-empty target list are errors (the quiet plus
debug combination only prints a remark and is not data). -/
def validateDirective (d : runDirective) : Option parseError :=
  if d.Command.length < 1 then some ⟨psCommand⟩
  else if d.WatchTargets.length < 1 then some ⟨psWatchTarget⟩
  else if d.WatchTargets.any (fun t => t.length > 0) then none
  else some ⟨psWatchTarget⟩

/-- parseCli of cli.go: the missing-argument check, then
buildBaseDirective, then the argument loop, then the slice
truncations and validateDirective. -/
def parseCli (sys : Sys) (args : List String) : Except parseError runDirective :=
  if args.length < 1 then .error ⟨psNumArgs⟩
  else
    match buildBaseDirective sys with
    | .error e => .error e
    | .ok d0 =>
      match parseArgsLoop sys args d0 [] [] with
      | .error e => .error e
      | .ok (d1, tg, pt) =>
        match validateDirective
            { d1 with WatchTargets := finalizeTargets tg, Patterns := pt } with
        | some e => .error e
        | none => .ok { d1 with WatchTargets := finalizeTargets tg, Patterns := pt }

/-- What main does with a startup outcome: exit with a code, having
printed usage or not, or proceed into the event loop. -/
inductive StartupStep where
  | exitWith (code : Int) (printedUsage : Bool)
  | proceed

/-- The error dispatch of main up to the event loop: a parse error
prints usage and exits 0 at stage psHelp and otherwise dies with
exCommandline; then a fsnotify.NewWatcher error dies with
exCommandline; then a subscribe (watcher.Add) error dies with
exWatcher; otherwise the event loop is entered. -/
def mainStartupExit (parseRes : Except parseError runDirective)
    (newWatcherErr : Option String) (subscribeErr : Option String) : StartupStep :=
  match parseRes with
  | .error pe =>
    if pe.Stage = psHelp then .exitWith 0 true
    else .exitWith (exitReason.toInt .exCommandline) false
  | .ok _ =>
    match newWatcherErr with
    | some _ => .exitWith (exitReason.toInt .exCommandline) false
    | none =>
      match subscribeErr with
      | some _ => .exitWith (exitReason.toInt .exWatcher) false
      | none => .proceed

/-! ## Filter lemmas -/

theorem isRejectedAux_shift (base : String) (chain : List matcher) (k : Nat) :
    isRejectedAux base chain k =
      (isRejectedAux base chain 0).map (fun p => (p.1 + k, p.2)) := by
  induction chain generalizing k with
  | nil => rfl
  | cons p rest ih =>
    by_cases hIg : p.IsIgnore
    · by_cases hE : p.Expr base
      · simp [isRejectedAux, hIg, hE]
      · simp only [isRejectedAux, hIg, hE, if_true, if_false, Bool.false_eq_true]
        rw [ih (k + 1), ih 1, Option.map_map]
        congr 1
        funext q
        simp
        omega
    · by_cases hE : p.Expr base
      · simp only [isRejectedAux, hIg, hE, if_false, Bool.not_true,
          Bool.false_eq_true]
        rw [ih (k + 1), ih 1, Option.map_map]
        congr 1
        funext q
        simp
        omega
      · simp [isRejectedAux, hIg, hE]

theorem isRejectedAux_cons_reject (base : String) (p : matcher)
    (rest : List matcher) (k : Nat) (h : rejectsMatcher p base = true) :
    isRejectedAux base (p :: rest) k = some (k, p.IsIgnore) := by
  unfold rejectsMatcher at h
  by_cases hIg : p.IsIgnore
  · rw [hIg] at h ⊢
    simp only [if_true] at h
    simp [isRejectedAux, hIg, h]
  · simp only [Bool.not_eq_true] at hIg
    rw [hIg] at h ⊢
    simp only [if_false, Bool.false_eq_true] at h
    simp [isRejectedAux, hIg, h]

theorem isRejectedAux_cons_pass (base : String) (p : matcher)
    (rest : List matcher) (k : Nat) (h : rejectsMatcher p base = false) :
    isRejectedAux base (p :: rest) k = isRejectedAux base rest (k + 1) := by
  unfold rejectsMatcher at h
  by_cases hIg : p.IsIgnore
  · rw [hIg] at h
    simp only [if_true] at h
    simp [isRejectedAux, hIg, h]
  · simp only [Bool.not_eq_true] at hIg
    rw [hIg] at h
    simp at h
    simp [isRejectedAux, hIg, h]

theorem isRejectedAux_eq_none_iff (base : String) (chain : List matcher) (k : Nat) :
    isRejectedAux base chain k = none ↔
      ∀ m ∈ chain, rejectsMatcher m base = false := by
  induction chain generalizing k with
  | nil => simp [isRejectedAux]
  | cons p rest ih =>
    by_cases hp : rejectsMatcher p base = true
    · rw [isRejectedAux_cons_reject base p rest k hp]
      simp [hp]
    · simp only [Bool.not_eq_true] at hp
      rw [isRejectedAux_cons_pass base p rest k hp]
      rw [ih (k + 1)]
      simp [hp]

theorem isRejectedAux_isSome_iff (base : String) (chain : List matcher) (k : Nat) :
    (isRejectedAux base chain k).isSome = true ↔
      ∃ i : Fin chain.length, rejectsMatcher (chain.get i) base = true := by
  rw [Option.isSome_iff_ne_none]
  constructor
  · intro h
    by_contra hc
    push_neg at hc
    apply h
    rw [isRejectedAux_eq_none_iff]
    intro m hm
    obtain ⟨i, hi⟩ := List.mem_iff_get.mp hm
    have := hc i
    rw [hi] at this
    simpa using this
  · rintro ⟨i, hi⟩
    intro h
    rw [isRejectedAux_eq_none_iff] at h
    have := h (chain.get i) (chain.get_mem i i.isLt)
    rw [hi] at this
    simp at this

theorem isRejectedAux_first (base : String) (chain : List matcher)
    (i : Nat) (h : i < chain.length)
    (hrej : rejectsMatcher (chain.get ⟨i, h⟩) base = true)
    (hfirst : ∀ j (hj : j < chain.length), j < i →
      rejectsMatcher (chain.get ⟨j, hj⟩) base = false) :
    isRejectedAux base chain 0 = some (i, (chain.get ⟨i, h⟩).IsIgnore) := by
  induction chain generalizing i with
  | nil => exact absurd h (by simp)
  | cons p rest ih =>
    match i with
    | 0 =>
      have : (p :: rest).get ⟨0, h⟩ = p := rfl
      rw [this] at hrej ⊢
      exact isRejectedAux_cons_reject base p rest 0 hrej
    | Nat.succ k =>
      have hp : rejectsMatcher p base = false := by
        have := hfirst 0 (by simp) (Nat.succ_pos k)
        simpa using this
      rw [isRejectedAux_cons_pass base p rest 0 hp]
      rw [isRejectedAux_shift base rest 1]
      have hk : k < rest.length := by
        simpa [Nat.succ_lt_succ_iff] using h
      have hget : (p :: rest).get ⟨k + 1, h⟩ = rest.get ⟨k, hk⟩ := rfl
      rw [hget] at hrej ⊢
      have hfirst2 : ∀ j (hj : j < rest.length), j < k →
          rejectsMatcher (rest.get ⟨j, hj⟩) base = false := by
        intro j hj hjk
        have := hfirst (j + 1) (by simpa [Nat.succ_lt_succ_iff] using hj)
          (Nat.succ_lt_succ hjk)
        simpa using this
      rw [ih k hk hrej hfirst2]
      rfl


/-! ## CLI lemmas -/

theorem parseArgsLoop_ok_autoIgnore :
    ∀ (n : Nat) (args : List String), args.length ≤ n →
    ∀ (sys : Sys) (d : runDirective) (tg : List String) (pt : List matcher)
      (out : runDirective × List String × List matcher),
      parseArgsLoop sys args d tg pt = Except.ok out →
      out.1.Features.autoIgnore = d.Features.autoIgnore := by
  intro n
  induction n with
  | zero =>
    intro args hlen sys d tg pt out h
    have hnil : args = [] := List.length_eq_zero.mp (Nat.le_zero.mp hlen)
    subst hnil
    injection h with h2
    rw [← h2]
  | succ n ih =>
    intro args hlen sys d tg pt out h
    cases args with
    | nil =>
      injection h with h2
      rw [← h2]
    | cons arg rest =>
      have hrest : rest.length ≤ n := by
        simp only [List.length_cons] at hlen
        omega
      unfold parseArgsLoop at h
      by_cases h1 : arg = "-d"
      · rw [if_pos h1] at h
        have hh := ih rest hrest sys _ tg pt out h
        exact hh
      rw [if_neg h1] at h
      by_cases h2 : arg = "-c"
      · rw [if_pos h2] at h
        have hh := ih rest hrest sys _ tg pt out h
        exact hh
      rw [if_neg h2] at h
      by_cases h3 : arg = "-R"
      · rw [if_pos h3] at h
        have hh := ih rest hrest sys _ tg pt out h
        exact hh
      rw [if_neg h3] at h
      by_cases h4 : arg = "-q"
      · rw [if_pos h4] at h
        have hh := ih rest hrest sys _ tg pt out h
        exact hh
      rw [if_neg h4] at h
      by_cases h5 : arg = "-h" ∨ arg = "h" ∨ arg = "--help" ∨ arg = "help"
      · rw [if_pos h5] at h
        exact Except.noConfusion h
      rw [if_neg h5] at h
      by_cases h6 : arg = "-w"
      · rw [if_pos h6] at h
        cases rest with
        | nil => exact Except.noConfusion h
        | cons v rest2 =>
          dsimp only at h
          cases hA : strconvAtoi v with
          | none =>
            rw [hA] at h
            exact Except.noConfusion h
          | some m =>
            rw [hA] at h
            have hr2 : rest2.length ≤ n := by
              simp only [List.length_cons] at hlen
              omega
            have hh := ih rest2 hr2 sys _ tg pt out h
            exact hh
      rw [if_neg h6] at h
      by_cases h7 : arg = "-i" ∨ arg = "-r"
      · rw [if_pos h7] at h
        cases rest with
        | nil => exact Except.noConfusion h
        | cons v rest2 =>
          dsimp only at h
          cases hC : sys.compile v with
          | none =>
            rw [hC] at h
            exact Except.noConfusion h
          | some f =>
            rw [hC] at h
            have hr2 : rest2.length ≤ n := by
              simp only [List.length_cons] at hlen
              omega
            have hh := ih rest2 hr2 sys d tg _ out h
            exact hh
      rw [if_neg h7] at h
      by_cases h8 : arg = ""
      · rw [if_pos h8] at h
        exact Except.noConfusion h
      rw [if_neg h8] at h
      by_cases h9 : arg.toList.head? = some '-'
      · rw [if_pos h9] at h
        exact Except.noConfusion h
      rw [if_neg h9] at h
      by_cases h10 : d.Command = ""
      · rw [if_pos h10] at h
        by_cases h11 : trimSpace arg = ""
        · rw [if_pos h11] at h
          exact Except.noConfusion h
        · rw [if_neg h11] at h
          have hh := ih rest hrest sys _ tg pt out h
          exact hh
      · rw [if_neg h10] at h
        by_cases h11 : trimSpace arg = ""
        · rw [if_pos h11] at h
          exact Except.noConfusion h
        rw [if_neg h11] at h
        by_cases h12 : sys.statExists (trimSpace arg) = false
        · rw [if_pos h12] at h
          exact Except.noConfusion h
        rw [if_neg h12] at h
        by_cases h13 : sys.statIsDir (trimSpace arg) = false
        · rw [if_pos h13] at h
          exact Except.noConfusion h
        rw [if_neg h13] at h
        have hh := ih rest hrest sys d _ pt out h
        exact hh

theorem buildBaseDirective_ok_autoIgnore (sys : Sys) (d0 : runDirective)
    (h : buildBaseDirective sys = Except.ok d0) :
    d0.Features.autoIgnore = true := by
  unfold buildBaseDirective at h
  by_cases h1 : sys.shellEnv.length < 1
  · rw [if_pos h1] at h
    exact Except.noConfusion h
  rw [if_neg h1] at h
  by_cases h2 : sys.statExists sys.shellEnv = false
  · rw [if_pos h2] at h
    exact Except.noConfusion h
  rw [if_neg h2] at h
  injection h with h3
  rw [← h3]
  rfl

theorem parseCli_ok_autoIgnore (sys : Sys) (args : List String)
    (d : runDirective) (h : parseCli sys args = Except.ok d) :
    d.Features.autoIgnore = true := by
  unfold parseCli at h
  split at h
  · exact Except.noConfusion h
  · split at h
    · exact Except.noConfusion h
    · rename_i d0 hB
      split at h
      · exact Except.noConfusion h
      · rename_i d1 tg pt hL
        split at h
        · exact Except.noConfusion h
        · injection h with h3
          rw [← h3]
          have hpres := parseArgsLoop_ok_autoIgnore args.length args le_rfl
            sys d0 [] [] (d1, tg, pt) hL
          have hbase := buildBaseDirective_ok_autoIgnore sys d0 hB
          exact hpres.trans hbase

/-- A concrete collaborator record for witnesses: a present shell,
a file system where every path exists and is a directory, and a
compiler that accepts every pattern with an always-true match. -/
def sys0 : Sys :=
  { shellEnv := "/bin/sh", statExists := fun _ => true,
    statIsDir := fun _ => true, compile := fun _ => some (fun _ => true) }

theorem isRejected_eq_false_iff (chain : List matcher) (e : FsEvent) :
    isRejected chain e = false ↔
      ∀ m ∈ chain, rejectsMatcher m (filepathBase e.Name) = false := by
  unfold isRejected
  cases chain with
  | nil => simp
  | cons p rest =>
    rw [if_neg (by simp)]
    constructor
    · intro h
      rw [← isRejectedAux_eq_none_iff (filepathBase e.Name) (p :: rest) 0]
      cases haux : isRejectedAux (filepathBase e.Name) (p :: rest) 0 with
      | none => rfl
      | some q =>
        rw [haux] at h
        exact absurd h (by simp)
    · intro h
      have hnone := (isRejectedAux_eq_none_iff (filepathBase e.Name) (p :: rest) 0).mpr h
      rw [hnone]
      rfl

/-- C2: for every input path and pattern chain, the Filter accepts
exactly when no IGNORE matcher matches and every RESTRICT matcher
matches, a matcher matching a path meaning its compiled expression
matching the path as the code applies it (namely to the basename of
the path); the empty chain accepts everything as the special case of
the vacuous conjunction. -/
theorem c2_filter_accept_iff (chain : List matcher) (e : FsEvent) :
    isRejected chain e = false ↔
      (∀ m ∈ chain, m.IsIgnore = true →
        m.Expr (filepathBase e.Name) = false) ∧
      (∀ m ∈ chain, m.IsIgnore = false →
        m.Expr (filepathBase e.Name) = true) := by
  rw [isRejected_eq_false_iff]
  constructor
  · intro h
    refine ⟨fun m hm hIg => ?_, fun m hm hIg => ?_⟩
    · have hr := h m hm
      unfold rejectsMatcher at hr
      rw [hIg] at hr
      simpa using hr
    · have hr := h m hm
      unfold rejectsMatcher at hr
      rw [hIg] at hr
      simpa using hr
  · rintro ⟨hI, hR⟩ m hm
    unfold rejectsMatcher
    cases hIg : m.IsIgnore with
    | true => simp [hI m hm hIg]
    | false => simp [hR m hm hIg]

/-- C2 witness: the empty chain accepts a concrete event, through the
theorem applied at the empty chain with both conjuncts vacuous. -/
theorem c2_filter_accept_iff_witness : isRejected [] ⟨"a/b.c"⟩ = false :=
  (c2_filter_accept_iff [] ⟨"a/b.c"⟩).mpr ⟨by simp, by simp⟩

/-- C3 counterexample: the claim says matchers are evaluated against
the full path.  A RESTRICT matcher whose expression matches exactly
the full path sub/app.c accepts the event under the spec reading but
the code, which feeds it filepath.Base, rejects it. -/
theorem c3_counterexample :
    isRejectedFullPathSpec
        [{ Expr := fun s => s == "sub/app.c", IsIgnore := false }]
        ⟨"sub/app.c"⟩ = false ∧
      isRejected
        [{ Expr := fun s => s == "sub/app.c", IsIgnore := false }]
        ⟨"sub/app.c"⟩ = true := by
  constructor
  · rfl
  · rfl

/-- C3 (amended): for a non-empty chain the Filter evaluates each
matcher in order against the basename (filepath.Base) of the event
path, not the full path; IGNORE rejects on match, RESTRICT rejects on
non-match, the first rejection wins (the reported index and mode are
those of the first rejecting matcher), and the event is accepted if
every matcher passes. -/
theorem c3_filter_order_amended (chain : List matcher) (e : FsEvent) :
    (isRejected chain e = true ↔
      ∃ i : Fin chain.length,
        rejectsMatcher (chain.get i) (filepathBase e.Name) = true) ∧
    (∀ i : Fin chain.length,
      rejectsMatcher (chain.get i) (filepathBase e.Name) = true →
      (∀ j : Fin chain.length, j.val < i.val →
        rejectsMatcher (chain.get j) (filepathBase e.Name) = false) →
      isRejectedAux (filepathBase e.Name) chain 0 =
        some (i.val, (chain.get i).IsIgnore)) := by
  constructor
  · unfold isRejected
    cases chain with
    | nil =>
      constructor
      · intro h
        exact absurd h (by simp)
      · rintro ⟨i, hi⟩
        exact absurd i.isLt (by simp)
    | cons p rest =>
      rw [if_neg (by simp)]
      exact isRejectedAux_isSome_iff (filepathBase e.Name) (p :: rest) 0
  · intro i h1 h2
    exact isRejectedAux_first (filepathBase e.Name) chain i.val i.isLt h1
      (fun j hj hlt => h2 ⟨j, hj⟩ hlt)

/-- A two-matcher chain for the C3 witness: the first (RESTRICT,
always matching) passes, the second (IGNORE, always matching)
rejects; the reported rejection index must be 1. -/
def passThenIgnoreChain : List matcher :=
  [{ Expr := fun _ => true, IsIgnore := false },
   { Expr := fun _ => true, IsIgnore := true }]

/-- C3 witness: on the two-matcher chain the first rejecting matcher
is at index 1 with IGNORE mode, and that is what the loop reports. -/
theorem c3_filter_order_amended_witness :
    isRejectedAux (filepathBase "a/b.c") passThenIgnoreChain 0 =
      some (1, (passThenIgnoreChain.get ⟨1, by decide⟩).IsIgnore) :=
  (c3_filter_order_amended passThenIgnoreChain ⟨"a/b.c"⟩).2 ⟨1, by decide⟩
    (by decide)
    (fun j hj => by
      have hj1 : j.val = 0 := by
        have hlt : j.val < 1 := hj
        omega
      have hj0 : j = (⟨0, by decide⟩ : Fin passThenIgnoreChain.length) :=
        Fin.ext hj1
      subst hj0
      decide)

/-! ## Runner lemmas and claims -/

theorem isRecent_eq_true_iff (run : runDirective) (now : Int) :
    isRecent run now = true ↔
      ¬(now - run.LastRun > effectiveWindow run ∧
        now - run.LastFin > effectiveWindow run) := by
  unfold isRecent
  rw [Bool.or_eq_true, decide_eq_true_eq, decide_eq_true_eq]
  constructor
  · rintro (h | h) ⟨h1, h2⟩ <;> omega
  · intro h
    by_contra hc
    push_neg at hc
    exact h ⟨by omega, by omega⟩

/-- A clobber-mode runner state with a stuck living child, its last
start and finish long past: the recency gate is open. -/
def clobberStuckRun : runDirective :=
  { Shell := "/bin/sh", Command := "sleep 30", WatchTargets := ["./"],
    Patterns := [],
    Features := { autoIgnore := true, debug := false, clobber := true,
                  recursive := false, quiet := false },
    WaitFor := 2000000000, LastRun := 0, LastFin := 0, Living := some 7 }

/-- C1 counterexample: in the state clobberStuckRun at now = 10 s both
recency differences strictly exceed the effective window, yet when
the kill of the living child fails maybeRun starts nothing, refuting
the claimed if-and-only-if in its left-to-right direction from
recency to a started run. -/
theorem c1_counterexample :
    ((10000000000 : Int) - clobberStuckRun.LastRun >
        effectiveWindow clobberStuckRun ∧
      (10000000000 : Int) - clobberStuckRun.LastFin >
        effectiveWindow clobberStuckRun) ∧
    (maybeRun clobberStuckRun 10000000000 (some "eperm") none).1 = false := by
  exact ⟨⟨by decide, by decide⟩, by decide⟩

/-- C1 (amended): maybeRun starts a run exactly when both now minus
lastStart and now minus lastFinish strictly exceed the effective
window (WaitFor, doubled with int64 wraparound in CLOBBER mode) and,
in CLOBBER mode with a living child, the kill succeeds; whenever the
recency condition fails it starts nothing and returns (false, nil). -/
theorem c1_recency_gate_amended (run : runDirective) (now : Int)
    (killErr syncErr : Option String) :
    ((maybeRun run now killErr syncErr).1 = true ↔
      (now - run.LastRun > effectiveWindow run ∧
        now - run.LastFin > effectiveWindow run ∧
        (run.Features.clobber = true → run.Living.isSome = true →
          killErr = none))) ∧
    (¬(now - run.LastRun > effectiveWindow run ∧
        now - run.LastFin > effectiveWindow run) →
      maybeRun run now killErr syncErr = (false, none)) := by
  constructor
  · constructor
    · intro h
      unfold maybeRun at h
      by_cases hr : isRecent run now
      · rw [if_pos hr] at h
        exact absurd h (by simp)
      · rw [if_neg hr] at h
        have hconj : now - run.LastRun > effectiveWindow run ∧
            now - run.LastFin > effectiveWindow run := by
          by_contra hc
          exact hr ((isRecent_eq_true_iff run now).mpr hc)
        refine ⟨hconj.1, hconj.2, fun hcl hlv => ?_⟩
        rw [if_pos hcl] at h
        obtain ⟨p, hp⟩ := Option.isSome_iff_exists.mp hlv
        cases hk : killErr with
        | none => rfl
        | some msg =>
          rw [hk] at h
          simp [runAsync, cleanupExistant, hp] at h
    · rintro ⟨h1, h2, h3⟩
      have hnr : isRecent run now = false := by
        rw [Bool.eq_false_iff]
        exact fun hc => ((isRecent_eq_true_iff run now).mp hc) ⟨h1, h2⟩
      unfold maybeRun
      rw [hnr]
      rw [if_neg (by simp)]
      by_cases hcl : run.Features.clobber = true
      · rw [if_pos hcl]
        cases hlv : run.Living with
        | none => simp [runAsync, cleanupExistant, hlv]
        | some p =>
          have hk := h3 hcl (by rw [hlv]; rfl)
          simp [runAsync, cleanupExistant, hlv, hk]
      · rw [if_neg hcl]
        rfl
  · intro hfail
    have hrec : isRecent run now = true := (isRecent_eq_true_iff run now).mpr hfail
    unfold maybeRun
    rw [hrec]
    rw [if_pos rfl]

/-- An idle non-clobber runner state with the default window and both
timestamps long past. -/
def idleQuickRun : runDirective :=
  { Shell := "/bin/sh", Command := "make", WatchTargets := ["./"],
    Patterns := [],
    Features := { autoIgnore := true, debug := false, clobber := false,
                  recursive := false, quiet := false },
    WaitFor := 2000000000, LastRun := 0, LastFin := 0, Living := none }

/-- C1 witness: at now = 5 s both differences exceed the 2 s window in
the idle state, so maybeRun starts a run. -/
theorem c1_recency_gate_amended_witness :
    (maybeRun idleQuickRun 5000000000 none none).1 = true :=
  (c1_recency_gate_amended idleQuickRun 5000000000 none none).1.mpr
    ⟨by decide, by decide, fun hcl _ => absurd hcl (by decide)⟩

/-- A second clobber-mode state with a stuck living child, used by
the C5 refutation and witness. -/
def clobberStuckRun2 : runDirective :=
  { Shell := "/bin/sh", Command := "npm start", WatchTargets := ["./"],
    Patterns := [],
    Features := { autoIgnore := true, debug := false, clobber := true,
                  recursive := false, quiet := false },
    WaitFor := 1000000000, LastRun := 0, LastFin := 0, Living := some 41 }

/-- C5 counterexample: with CLOBBER on, a living child, an open
recency gate and a failing kill, maybeRun returns (false, nil): the
error component is nil, not the non-nil error the claim states, since
runAsync discards the cleanup failure and maybeRun pairs its Boolean
with nil. -/
theorem c5_counterexample :
    (maybeRun clobberStuckRun2 10000000000 (some "eperm") none).1 = false ∧
    (maybeRun clobberStuckRun2 10000000000 (some "eperm") none).2 = none := by
  exact ⟨by decide, by decide⟩

/-- C5 (amended): in CLOBBER mode with a living child and an open
recency gate, maybeRun first attempts the kill of the existing child
process group (cleanupExistant reports that a child existed), and a
kill failure makes it return (false, nil), the kill error being
discarded, skipping the replacement run; no exit path is involved. -/
theorem c5_clobber_kill_failure_amended (run : runDirective) (now : Int)
    (killMsg : String) (syncErr : Option String)
    (hcl : run.Features.clobber = true) (hlv : run.Living.isSome = true)
    (hnr : isRecent run now = false) :
    maybeRun run now (some killMsg) syncErr = (false, none) ∧
    (cleanupExistant run (some killMsg)).1 = true := by
  obtain ⟨p, hp⟩ := Option.isSome_iff_exists.mp hlv
  constructor
  · unfold maybeRun
    rw [hnr]
    rw [if_neg (by simp), if_pos hcl]
    simp [runAsync, cleanupExistant, hp]
  · simp [cleanupExistant, hp]

/-- C5 witness: the amended statement at the concrete stuck state. -/
theorem c5_clobber_kill_failure_amended_witness :
    maybeRun clobberStuckRun2 10000000000 (some "eperm") none = (false, none) ∧
    (cleanupExistant clobberStuckRun2 (some "eperm")).1 = true :=
  c5_clobber_kill_failure_amended clobberStuckRun2 10000000000 "eperm" none
    (by decide) (by decide) (by decide)

/-- C7: with WaitFor = 0 there is no debounce: in an idle state
(no living child) any event with strictly positive elapsed time since
both the last start and the last finish finds isRecent false, and the
handleFSEvents step runs maybeRun which reports a started run, in
either clobber mode. -/
theorem c7_zero_wait_no_debounce (run : runDirective) (now : Int)
    (killErr syncErr : Option String) (hw : run.WaitFor = 0)
    (hidle : run.Living = none) (h1 : now - run.LastRun > 0)
    (h2 : now - run.LastFin > 0) :
    isRecent run now = false ∧
    (handleFSEventStep run now killErr syncErr).map Prod.fst = some true := by
  have hwin : effectiveWindow run = 0 := by
    unfold effectiveWindow
    rw [hw]
    by_cases hcl : run.Features.clobber = true
    · rw [if_pos hcl]
      decide
    · rw [if_neg hcl]
  have hnr : isRecent run now = false := by
    unfold isRecent
    rw [hwin]
    simp only [Bool.or_eq_false_iff, decide_eq_false_iff_not]
    omega
  refine ⟨hnr, ?_⟩
  unfold handleFSEventStep
  rw [hidle]
  rw [if_neg (by simp)]
  unfold maybeRun
  rw [hnr]
  rw [if_neg (by simp)]
  by_cases hcl : run.Features.clobber = true
  · rw [if_pos hcl]
    simp [runAsync, cleanupExistant, hidle]
  · rw [if_neg hcl]
    rfl

/-- An idle runner state with a zero wait window and small concrete
timestamps. -/
def zeroWaitRun : runDirective :=
  { Shell := "/bin/sh", Command := "true", WatchTargets := ["./"],
    Patterns := [],
    Features := { autoIgnore := true, debug := false, clobber := false,
                  recursive := false, quiet := false },
    WaitFor := 0, LastRun := 5, LastFin := 7, Living := none }

/-- C7 witness: at now = 8 the zero-window idle state is not recent
and the event handler starts a run. -/
theorem c7_zero_wait_no_debounce_witness :
    isRecent zeroWaitRun 8 = false ∧
    (handleFSEventStep zeroWaitRun 8 none none).map Prod.fst = some true :=
  c7_zero_wait_no_debounce zeroWaitRun 8 none none rfl rfl (by decide) (by decide)

/-! ## Startup and CLI claims -/

/-- C6 counterexample: a failing fsnotify.NewWatcher makes main die
with exCommandline, so the process exits with code 1 where the claim
requires every watcher initialization error to exit with code 2. -/
theorem c6_counterexample :
    mainStartupExit (Except.ok (baseDirectiveOf sys0)) (some "emfile") none =
      StartupStep.exitWith 1 false ∧ ¬((1 : Int) = 2) :=
  ⟨rfl, by decide⟩

/-- C6 (amended): a watcher initialization (fsnotify.NewWatcher)
error exits with code 1, the exCommandline code; a subscribe error
exits with code 2 (exWatcher); and a fatal filesystem-event-stream
error makes watchFSEvents die with code 3 (exFsevent). -/
theorem c6_exit_codes_amended :
    (∀ (d : runDirective) (w : String) (s : Option String),
      mainStartupExit (Except.ok d) (some w) s = StartupStep.exitWith 1 false) ∧
    (∀ (d : runDirective) (s : String),
      mainStartupExit (Except.ok d) none (some s) = StartupStep.exitWith 2 false) ∧
    (∀ (d : runDirective) (err : String),
      watchFSEventsStep d (Sum.inr err) = WatchStep.exit 3) :=
  ⟨fun _ _ _ => rfl, fun _ _ => rfl, fun _ _ => rfl⟩

/-- C8: every directive parseCli produces has the auto-ignore feature
on (buildBaseDirective presets it and no flag clears it), and for any
such directive an event whose basename matches the magic editor-temp
pattern is dropped by watchFSEvents before the user pattern chain is
consulted: the drop holds whatever Patterns the directive carries. -/
theorem c8_auto_ignore_always_on :
    (∀ (sys : Sys) (args : List String) (d : runDirective),
      parseCli sys args = Except.ok d → d.Features.autoIgnore = true) ∧
    (∀ (sys : Sys) (args : List String) (d : runDirective) (e : FsEvent),
      parseCli sys args = Except.ok d →
      MatchesMagicRegexp (filepathBase e.Name).toList →
      watchFSEventsStep d (Sum.inl e) = WatchStep.drop) := by
  constructor
  · exact fun sys args d h => parseCli_ok_autoIgnore sys args d h
  · intro sys args d e hok hmagic
    have hauto := parseCli_ok_autoIgnore sys args d hok
    have hB : magicMatchB (filepathBase e.Name).toList = true :=
      (magicMatchB_iff _).mpr hmagic
    unfold watchFSEventsStep
    dsimp only
    rw [hauto, hB]
    rfl

/-- The directive parsed from the single argument ls under the
concrete collaborators. -/
def dLs : runDirective :=
  match parseCli sys0 ["ls"] with
  | Except.ok d => d
  | Except.error _ => baseDirectiveOf sys0

/-- C8 witness: under the parsed directive, the event for the vim
atomic-write artifact /tmp/4913 is dropped. -/
theorem c8_auto_ignore_always_on_witness :
    watchFSEventsStep dLs (Sum.inl ⟨"/tmp/4913"⟩) = WatchStep.drop :=
  c8_auto_ignore_always_on.2 sys0 ["ls"] dLs ⟨"/tmp/4913"⟩ rfl
    (Or.inr (by decide))

/-- C9 counterexample: the claim says a command string equal to h can
never be executed as COMMAND, but the padded argument consisting of a
space and h survives parsing: strings.TrimSpace reduces it to h, so
parseCli succeeds with COMMAND h. -/
theorem c9_counterexample :
    (match parseCli sys0 [" h"] with
     | Except.ok d => d.Command
     | Except.error _ => "") = "h" := by
  decide

/-- C9 (amended): the argument exactly equal to h is parsed as a help
request, parseCli failing at the help stage whenever the SHELL checks
pass, and main then prints the usage text and exits with status 0;
the literal argument h therefore never becomes COMMAND, although the
string h can still be executed as COMMAND through an argument that
only trims to h, such as one with leading white space. -/
theorem c9_help_arg_amended :
    (∀ sys : Sys, ¬(sys.shellEnv.length < 1) →
      ¬(sys.statExists sys.shellEnv = false) →
      parseCli sys ["h"] = Except.error ⟨psHelp⟩) ∧
    mainStartupExit (Except.error ⟨psHelp⟩) none none =
      StartupStep.exitWith 0 true := by
  constructor
  · intro sys h1 h2
    have hB : buildBaseDirective sys = Except.ok (baseDirectiveOf sys) := by
      unfold buildBaseDirective
      rw [if_neg h1, if_neg h2]
    unfold parseCli
    rw [if_neg (by simp)]
    rw [hB]
    rfl
  · rfl

/-- C9 witness: the amended statement at the concrete collaborators:
parsing the bare h yields a help-stage error and the startup dispatch
on it is the usage-printing exit 0. -/
theorem c9_help_arg_amended_witness :
    parseCli sys0 ["h"] = Except.error ⟨psHelp⟩ ∧
    mainStartupExit (Except.error ⟨psHelp⟩) none none =
      StartupStep.exitWith 0 true :=
  ⟨c9_help_arg_amended.1 sys0 (by decide) (by decide), c9_help_arg_amended.2⟩

/-- A clobber-mode state whose hugely negative WaitFor makes the
doubled window wrap to a huge positive value. -/
def negWrapRun : runDirective :=
  { Shell := "/bin/sh", Command := "true", WatchTargets := ["./"],
    Patterns := [],
    Features := { autoIgnore := true, debug := false, clobber := true,
                  recursive := false, quiet := false },
    WaitFor := -4700000000000000000, LastRun := 0, LastFin := 0,
    Living := none }

/-- C10 counterexample: two concrete refutations of the universal
claim.  First, -w 10000000000 is accepted but the stored window is
the int64-wrapped product, a negative number, not N seconds.  Second,
a negative WaitFor around -4.7e18 ns under CLOBBER doubles with
wraparound to a huge positive window, so the recency check reports
recent even long after both timestamps, unlike WaitFor = 0. -/
theorem c10_counterexample :
    ((match parseCli sys0 ["x", "-w", "10000000000"] with
      | Except.ok d => d.WaitFor
      | Except.error _ => 0) = -8446744073709551616 ∧
      ¬((-8446744073709551616 : Int) = 10000000000 * 1000000000)) ∧
    isRecent negWrapRun 1000 = true := by
  exact ⟨⟨by decide, by decide⟩, by decide⟩

/-- C10 (amended): parseCli accepts any int64 N after -w with no
positivity check, storing WaitFor as the int64-wrapped product of N
and one second in nanoseconds, which equals N seconds whenever the
product stays in range; and for every negative stored WaitFor whose
clobber-doubled window also stays negative (all values down to -2^62,
hence every -w N withN down to about -4.6e9), the recency check
never reports recent once any time has elapsed since both timestamps,
exactly as with WaitFor = 0. -/
theorem c10_wait_flag_amended :
    (∀ (sys : Sys) (s : String) (n : Int),
      strconvAtoi s = some n →
      ¬(sys.shellEnv.length < 1) →
      ¬(sys.statExists sys.shellEnv = false) →
      ∃ d, parseCli sys ["x", "-w", s] = Except.ok d ∧
        d.WaitFor = wrap64 (n * 1000000000)) ∧
    (∀ (run : runDirective) (now : Int),
      run.WaitFor < 0 → wrap64 (run.WaitFor * 2) < 0 →
      now - run.LastRun > 0 → now - run.LastFin > 0 →
      isRecent run now = false ∧
        isRecent { run with WaitFor := 0 } now = isRecent run now) := by
  constructor
  · intro sys s n hA h1 h2
    have hB : buildBaseDirective sys = Except.ok (baseDirectiveOf sys) := by
      unfold buildBaseDirective
      rw [if_neg h1, if_neg h2]
    have hloop : parseArgsLoop sys ["x", "-w", s] (baseDirectiveOf sys) [] [] =
        (match strconvAtoi s with
         | none => Except.error ⟨psBadDuration⟩
         | some n =>
           Except.ok
             ({ baseDirectiveOf sys with
                  Command := trimSpace "x",
                  WaitFor := wrap64 (n * 1000000000) }, [], [])) := rfl
    rw [hA] at hloop
    refine ⟨{ baseDirectiveOf sys with
                Command := trimSpace "x",
                WaitFor := wrap64 (n * 1000000000),
                WatchTargets := finalizeTargets [],
                Patterns := [] }, ?_, ?_⟩
    · unfold parseCli
      rw [if_neg (by simp)]
      rw [hB]
      dsimp only
      rw [hloop]
      rfl
    · rfl
  · intro run now hneg hnegw h1 h2
    have hwin : effectiveWindow run < 0 := by
      unfold effectiveWindow
      by_cases hcl : run.Features.clobber = true
      · rw [if_pos hcl]
        exact hnegw
      · rw [if_neg hcl]
        exact hneg
    have hr : isRecent run now = false := by
      unfold isRecent
      simp only [Bool.or_eq_false_iff, decide_eq_false_iff_not]
      omega
    have hproj : ({ run with WaitFor := 0 } : runDirective).WaitFor = 0 := rfl
    have hwin0 : effectiveWindow { run with WaitFor := 0 } = 0 := by
      unfold effectiveWindow
      rw [hproj]
      by_cases hcl : ({ run with WaitFor := 0 } : runDirective).Features.clobber = true
      · rw [if_pos hcl]
        decide
      · rw [if_neg hcl]
    have hr0 : isRecent { run with WaitFor := 0 } now = false := by
      unfold isRecent
      rw [hwin0]
      simp only [Bool.or_eq_false_iff, decide_eq_false_iff_not]
      omega
    exact ⟨hr, hr0.trans hr.symm⟩

/-- An idle state with WaitFor of -5 seconds, in range for the
doubling. -/
def negFiveRun : runDirective :=
  { Shell := "/bin/sh", Command := "true", WatchTargets := ["./"],
    Patterns := [],
    Features := { autoIgnore := true, debug := false, clobber := true,
                  recursive := false, quiet := false },
    WaitFor := -5000000000, LastRun := 0, LastFin := 0, Living := none }

/-- C10 witness: the amended statement applied at -w -5 (the stored
window is -5 s with no positivity check) and at the -5 s state, where
the recency check is false and agrees with the zero window. -/
theorem c10_wait_flag_amended_witness :
    (∃ d, parseCli sys0 ["x", "-w", "-5"] = Except.ok d ∧
      d.WaitFor = wrap64 ((-5) * 1000000000)) ∧
    (isRecent negFiveRun 3 = false ∧
      isRecent { negFiveRun with WaitFor := 0 } 3 = isRecent negFiveRun 3) :=
  ⟨c10_wait_flag_amended.1 sys0 "-5" (-5) (by decide) (by decide) (by decide),
   c10_wait_flag_amended.2 negFiveRun 3 (by decide) (by decide) (by decide)
     (by decide)⟩
